import Mathlib

/-!
Shallow embedding of the Synaptic-View repository (src/core/state.py,
src/game/renderer.py, src/game/grid.py, src/main.py) and verification of
the specification claims about it.

Python dictionaries are modelled as insertion-ordered association lists:
inserting a fresh key appends it at the end, writing an existing key
replaces its value in place (keeping its position), exactly as Python
dicts behave.  Python numeric values (int / float / bool) are modelled
exactly, with floats as rationals.  The constants of src/core/config.py
(screen width, cell size, tick rate) are not part of src, so every
definition that needs them takes them as parameters.
-/

/-- A Python value as stored in the entity dictionaries of this program:
ints, floats (modelled as rationals), strings and booleans. -/
inductive PyVal where
  | int (n : Int)
  | num (q : ℚ)
  | str (s : String)
  | bool (b : Bool)
deriving DecidableEq, Repr

/-- Numeric view of a Python value (Python treats bool as numeric);
`none` for strings, where Python arithmetic would raise TypeError. -/
def PyVal.toQ : PyVal → Option ℚ
  | .int n => some (n : ℚ)
  | .num q => some q
  | .bool b => some (if b then 1 else 0)
  | .str _ => none

/-- An insertion-ordered dictionary, as a list of key/value pairs. -/
abbrev Dict (α β : Type) : Type := List (α × β)

namespace Dict

variable {α β : Type} [DecidableEq α]

/-- Python `d[k]` / `d.get(k)`: the value at the first matching key. -/
def get? (d : Dict α β) (k : α) : Option β :=
  (d.find? (fun p => p.1 = k)).map Prod.snd

/-- Python `k in d`. -/
def hasKey (d : Dict α β) (k : α) : Bool :=
  d.any (fun p => p.1 = k)

/-- Python `d[k] = v`: replace in place if the key exists (keeping its
position in insertion order), otherwise append at the end. -/
def set (d : Dict α β) (k : α) (v : β) : Dict α β :=
  match d with
  | [] => [(k, v)]
  | p :: rest => if p.1 = k then (k, v) :: rest else p :: set rest k v

/-- Python `d.update(u)`: set every key of `u` in turn.  The splat merge
`{**d, **u}` has the same semantics. -/
def updateWith (d u : Dict α β) : Dict α β :=
  u.foldl (fun acc p => set acc p.1 p.2) d

/-- The keys, in insertion order (Python `list(d.keys())`). -/
def keys (d : Dict α β) : List α := d.map Prod.fst

@[simp] theorem get?_nil (k : α) : get? ([] : Dict α β) k = none := rfl

@[simp] theorem get?_cons (p : α × β) (d : Dict α β) (k : α) :
    get? (p :: d) k = if p.1 = k then some p.2 else get? d k := by
  by_cases h : p.1 = k <;> simp [get?, List.find?, h]

@[simp] theorem hasKey_nil (k : α) : hasKey ([] : Dict α β) k = false := rfl

@[simp] theorem hasKey_cons (p : α × β) (d : Dict α β) (k : α) :
    hasKey (p :: d) k = (p.1 = k || hasKey d k) := by
  by_cases h : p.1 = k <;> simp [hasKey, h]

theorem hasKey_iff_get? (d : Dict α β) (k : α) :
    hasKey d k = true ↔ get? d k ≠ none := by
  induction d with
  | nil => simp
  | cons p d ih =>
    by_cases h : p.1 = k <;> simp [h, ih]

theorem get?_set_self (d : Dict α β) (k : α) (v : β) :
    get? (set d k v) k = some v := by
  induction d with
  | nil => simp [set]
  | cons p d ih =>
    by_cases hp : p.1 = k <;> simp [set, hp, ih]

theorem get?_set_ne (d : Dict α β) (k k' : α) (v : β) (h : k' ≠ k) :
    get? (set d k v) k' = get? d k' := by
  induction d with
  | nil => simp [set, Ne.symm h]
  | cons p d ih =>
    by_cases hp : p.1 = k
    · simp [set, hp, Ne.symm h, hp ▸ Ne.symm h]
    · by_cases hp' : p.1 = k' <;> simp [set, hp, hp', ih, h]

theorem get?_updateWith_not_mem (d u : Dict α β) (k : α)
    (h : k ∉ keys u) : get? (updateWith d u) k = get? d k := by
  induction u generalizing d with
  | nil => rfl
  | cons p u ih =>
    simp only [keys, List.map_cons, List.mem_cons] at h
    push_neg at h
    simpa [updateWith] using (ih (Dict.set d p.1 p.2) h.2).trans
      (get?_set_ne d p.1 k p.2 h.1)

theorem keys_set_of_hasKey (d : Dict α β) (k : α) (v : β)
    (h : hasKey d k = true) : keys (set d k v) = keys d := by
  induction d with
  | nil => simp at h
  | cons p d ih =>
    by_cases hp : p.1 = k
    · simp [set, hp, keys]
    · simp only [hasKey_cons, hp] at h
      simp only [decide_eq_true_eq, Bool.or_eq_true] at h
      have h2 : hasKey d k = true := h.resolve_left (fun hf => hf.elim)
      have h3 := ih h2
      simp only [keys] at h3
      simp [set, hp, keys, h3]

theorem keys_set_subset (d : Dict α β) (k : α) (v : β) :
    ∀ k', k' ∈ keys (set d k v) → k' ∈ keys d ∨ k' = k := by
  induction d with
  | nil => intro k' hk'; simp [set, keys] at hk'; simp [hk']
  | cons p d ih =>
    intro k' hk'
    by_cases hp : p.1 = k
    · simp only [set, hp, if_true, keys, List.map_cons, List.mem_cons] at hk'
      rcases hk' with h1 | h1
      · exact Or.inr h1
      · exact Or.inl (by simp [keys]; right; simpa [keys] using h1)
    · simp only [set, hp, if_false, keys, List.map_cons, List.mem_cons] at hk'
      rcases hk' with h1 | h1
      · exact Or.inl (by simp [keys, h1])
      · rcases ih k' h1 with h2 | h2
        · exact Or.inl (by simp [keys] at h2 ⊢; right; exact h2)
        · exact Or.inr h2

end Dict

/-! ## src/core/state.py -/

/-- The attribute dictionary of one entity (`EntityData` in state.py). -/
abbrev EntityData : Type := Dict String PyVal

/-- The state manager of state.py: the entity dictionary plus the
counter used to assign unique entity ids. -/
structure GameState where
  entities : Dict Nat EntityData
  nextEntityId : Nat
deriving DecidableEq, Repr

namespace GameState

/-- The state at program start: no entities, counter at 1
(`entities = {}`, `_next_entity_id = 1`). -/
def init : GameState := { entities := [], nextEntityId := 1 }

/-- The fixed default template that add_entity builds before merging the
caller-supplied data over it. -/
def defaultTemplate (entity_id : Nat) : EntityData :=
  [("id", .int entity_id), ("x", .int 0), ("y", .int 0),
   ("status", .str "Existing"), ("brain_active", .bool false)]

/-- GameState.add_entity: allocate the next id, merge `initial_data`
over the default template (splat merge, caller keys win), insert, bump
the counter, return the new state and the id. -/
def add_entity (s : GameState) (initial_data : EntityData) :
    GameState × Nat :=
  let entity_id := s.nextEntityId
  let entity_data := Dict.updateWith (defaultTemplate entity_id) initial_data
  ({ entities := Dict.set s.entities entity_id entity_data,
     nextEntityId := s.nextEntityId + 1 }, entity_id)

/-- GameState.update_entity: if the id is present, merge `updates` into
its dictionary in place; otherwise do nothing. -/
def update_entity (s : GameState) (entity_id : Nat) (updates : EntityData) :
    GameState :=
  if Dict.hasKey s.entities entity_id then
    { s with entities := s.entities.map (fun p =>
        if p.1 = entity_id then (p.1, Dict.updateWith p.2 updates) else p) }
  else s

/-- GameState.get_entity_ids: the list of all current entity ids. -/
def get_entity_ids (s : GameState) : List Nat := Dict.keys s.entities

/-- GameState.get_entity_data: the full data dictionary for one entity,
or the empty dictionary if the id is not found. -/
def get_entity_data (s : GameState) (entity_id : Nat) : EntityData :=
  (Dict.get? s.entities entity_id).getD []

/-- Modelled from the spec: removal of an entity, which the spec requires
the store to support ("removal of an entity ... invalidates only that
identity, never reassigns it") but which src/core/state.py does not
implement.  Removal deletes the entry for that id and touches nothing
else, in particular not the id counter. -/
def remove_entity (s : GameState) (entity_id : Nat) : GameState :=
  { s with entities := s.entities.filter (fun p => p.1 ≠ entity_id) }

end GameState

/-- One call into the entity store, for stating properties over
arbitrary sequences of calls. -/
inductive StoreOp where
  | create (d : EntityData)
  | update (entity_id : Nat) (d : EntityData)
  | remove (entity_id : Nat)

namespace GameState

/-- Run a sequence of store calls, collecting (in order) the ids that
the create calls return. -/
def runOps : GameState → List StoreOp → GameState × List Nat
  | s, [] => (s, [])
  | s, StoreOp.create d :: ops =>
    let r := s.add_entity d
    let rest := runOps r.1 ops
    (rest.1, r.2 :: rest.2)
  | s, StoreOp.update i d :: ops => runOps (s.update_entity i d) ops
  | s, StoreOp.remove i :: ops => runOps (s.remove_entity i) ops

end GameState

namespace Dict

variable {α β : Type} [DecidableEq α]

theorem hasKey_eq_false_iff (d : Dict α β) (k : α) :
    hasKey d k = false ↔ k ∉ keys d := by
  induction d with
  | nil => simp [keys]
  | cons p d ih =>
    by_cases h : p.1 = k
    · simp [keys, h]
    · simp only [hasKey_cons, h, keys, List.map_cons, List.mem_cons] at ih ⊢
      simp [h, ih]
      tauto

theorem get?_eq_none_of_not_mem_keys (d : Dict α β) (k : α)
    (h : k ∉ keys d) : get? d k = none := by
  induction d with
  | nil => rfl
  | cons p d ih =>
    simp only [keys, List.map_cons, List.mem_cons] at h
    push_neg at h
    rw [get?_cons, if_neg (fun hq => h.1 hq.symm)]
    exact ih (by simpa [keys] using h.2)

theorem keys_set_not_hasKey (d : Dict α β) (k : α) (v : β)
    (h : hasKey d k = false) : keys (set d k v) = keys d ++ [k] := by
  induction d with
  | nil => simp [set, keys]
  | cons p d ih =>
    simp only [hasKey_cons, Bool.or_eq_false_iff] at h
    have hp : ¬p.1 = k := by
      intro hpk; simp [hpk] at h
    have h3 := ih h.2
    simp only [keys] at h3
    simp [set, hp, keys, h3]

theorem get?_mapValueAt (d : Dict α β) (i j : α) (f : β → β) :
    get? (d.map (fun p => if p.1 = i then (p.1, f p.2) else p)) j =
      (if j = i then (get? d j).map f else get? d j) := by
  induction d with
  | nil => simp
  | cons p d ih =>
    have hkey : ((if p.1 = i then (p.1, f p.2) else p) : α × β).1 = p.1 := by
      by_cases hpi : p.1 = i <;> simp [hpi]
    by_cases hpj : p.1 = j
    · subst hpj
      by_cases hpi : p.1 = i
      · simp [get?_cons, hkey, hpi]
      · simp [get?_cons, hkey, hpi]
    · have hget : get? (p :: d) j = get? d j := by
        rw [get?_cons, if_neg hpj]
      simp only [List.map_cons, get?_cons, hkey, hpj, if_false, hget]
      exact ih

theorem get?_filterKeyNe (d : Dict α β) (i j : α) :
    get? (d.filter (fun p => p.1 ≠ i)) j =
      (if j = i then none else get? d j) := by
  induction d with
  | nil => simp
  | cons p d ih =>
    by_cases hpi : p.1 = i
    · have hc : (decide (p.1 ≠ i)) = false := by simp [hpi]
      rw [List.filter_cons, hc]
      simp only [Bool.false_eq_true, if_false, ih]
      by_cases hji : j = i
      · simp [hji]
      · have hpj : ¬p.1 = j := by
          rw [hpi]; exact fun hq => hji hq.symm
        simp [hji, hpj]
    · have hc : (decide (p.1 ≠ i)) = true := by simp [hpi]
      rw [List.filter_cons, hc]
      simp only [if_true, get?_cons]
      by_cases hpj : p.1 = j
      · have hji : ¬j = i := by rw [← hpj]; exact hpi
        simp [hpj, hji]
      · have hsplit : (if j = i then none else if p.1 = j then some p.2 else get? d j)
            = (if j = i then none else get? d j) := by
          by_cases hji : j = i
          · simp [hji]
          · simp [hji, hpj]
        rw [hsplit, if_neg hpj]
        simpa using ih

end Dict

namespace GameState

/-- How one lookup changes under update_entity: the targeted entity has
its dictionary merged, every other entity is untouched (also when the
target id is absent, in which case nothing changes). -/
theorem get?_update_entity (s : GameState) (i j : Nat) (u : EntityData) :
    Dict.get? (s.update_entity i u).entities j =
      (if j = i then (Dict.get? s.entities j).map (fun E => Dict.updateWith E u)
       else Dict.get? s.entities j) := by
  unfold update_entity
  by_cases h : Dict.hasKey s.entities i
  · simp only [h, if_true]
    exact Dict.get?_mapValueAt s.entities i j (fun E => Dict.updateWith E u)
  · simp only [h, if_false]
    by_cases hji : j = i
    · subst hji
      have : Dict.get? s.entities j = none := by
        by_contra hc
        exact h ((Dict.hasKey_iff_get? s.entities j).mpr hc)
      simp [this]
    · simp [hji]

theorem keys_update_entity (s : GameState) (i : Nat) (u : EntityData) :
    Dict.keys (s.update_entity i u).entities = Dict.keys s.entities := by
  unfold update_entity
  by_cases h : Dict.hasKey s.entities i
  · simp only [h, if_true, Dict.keys, List.map_map]
    apply List.map_congr_left
    intro p _
    by_cases hp : p.1 = i <;> simp [hp]
  · simp [h]

theorem nextId_update_entity (s : GameState) (i : Nat) (u : EntityData) :
    (s.update_entity i u).nextEntityId = s.nextEntityId := by
  unfold update_entity
  by_cases h : Dict.hasKey s.entities i <;> simp [h]

theorem keys_filter_sub {α β : Type} [DecidableEq α] (d : Dict α β)
    (f : α × β → Bool) (k : α) (h : k ∈ Dict.keys (d.filter f)) :
    k ∈ Dict.keys d := by
  simp only [Dict.keys, List.mem_map] at h ⊢
  obtain ⟨p, hp, hpk⟩ := h
  exact ⟨p, List.mem_of_mem_filter hp, hpk⟩

/-- The store invariant: every live id is below the counter, and live
ids are pairwise distinct. -/
def StoreInv (s : GameState) : Prop :=
  (∀ k ∈ Dict.keys s.entities, k < s.nextEntityId) ∧
  (Dict.keys s.entities).Nodup

theorem storeInv_init : StoreInv init := by
  constructor
  · intro k hk; simp [init, Dict.keys] at hk
  · simp [init, Dict.keys]

theorem add_entity_hasKey_false (s : GameState)
    (hb : ∀ k ∈ Dict.keys s.entities, k < s.nextEntityId) :
    Dict.hasKey s.entities s.nextEntityId = false := by
  rw [Dict.hasKey_eq_false_iff]
  intro hmem
  exact absurd (hb _ hmem) (lt_irrefl _)

theorem storeInv_add (s : GameState) (d : EntityData) (h : StoreInv s) :
    StoreInv (s.add_entity d).1 := by
  obtain ⟨hb, hn⟩ := h
  have hkeys : Dict.keys (s.add_entity d).1.entities
      = Dict.keys s.entities ++ [s.nextEntityId] :=
    Dict.keys_set_not_hasKey _ _ _ (add_entity_hasKey_false s hb)
  constructor
  · intro k hk
    rw [hkeys, List.mem_append] at hk
    have hnext : (s.add_entity d).1.nextEntityId = s.nextEntityId + 1 := rfl
    rw [hnext]
    rcases hk with hk | hk
    · exact Nat.lt_succ_of_lt (hb _ hk)
    · simp at hk; omega
  · rw [hkeys, List.nodup_append]
    refine ⟨hn, by simp, ?_⟩
    intro a ha hb2
    simp at hb2
    subst hb2
    exact absurd (hb _ ha) (lt_irrefl _)

theorem storeInv_update (s : GameState) (i : Nat) (u : EntityData)
    (h : StoreInv s) : StoreInv (s.update_entity i u) := by
  obtain ⟨hb, hn⟩ := h
  constructor
  · intro k hk
    rw [keys_update_entity] at hk
    rw [nextId_update_entity]
    exact hb _ hk
  · rw [keys_update_entity]; exact hn

theorem storeInv_remove (s : GameState) (i : Nat) (h : StoreInv s) :
    StoreInv (s.remove_entity i) := by
  obtain ⟨hb, hn⟩ := h
  have hsub : (Dict.keys (s.remove_entity i).entities).Sublist
      (Dict.keys s.entities) :=
    List.Sublist.map Prod.fst (List.filter_sublist s.entities)
  constructor
  · intro k hk
    exact hb _ (hsub.mem hk)
  · exact hn.sublist hsub

theorem storeInv_runOps (ops : List StoreOp) : ∀ s : GameState,
    StoreInv s → StoreInv (runOps s ops).1 := by
  induction ops with
  | nil => intro s h; exact h
  | cons op ops ih =>
    intro s h
    cases op with
    | create d => exact ih _ (storeInv_add s d h)
    | update i u => exact ih _ (storeInv_update s i u h)
    | remove i => exact ih _ (storeInv_remove s i h)

theorem runOps_nextId_mono (ops : List StoreOp) : ∀ s : GameState,
    s.nextEntityId ≤ (runOps s ops).1.nextEntityId := by
  induction ops with
  | nil => intro s; exact le_refl _
  | cons op ops ih =>
    intro s
    cases op with
    | create d =>
      have h1 := ih (s.add_entity d).1
      have h2 : (s.add_entity d).1.nextEntityId = s.nextEntityId + 1 := rfl
      simp only [runOps]
      omega
    | update i u =>
      have h1 := ih (s.update_entity i u)
      rw [nextId_update_entity] at h1
      exact h1
    | remove i => exact ih (s.remove_entity i)

theorem runOps_ids_ge (ops : List StoreOp) : ∀ (s : GameState) (i : Nat),
    i ∈ (runOps s ops).2 → s.nextEntityId ≤ i := by
  induction ops with
  | nil => intro s i h; simp [runOps] at h
  | cons op ops ih =>
    intro s i h
    cases op with
    | create d =>
      simp only [runOps, List.mem_cons] at h
      rcases h with h | h
      · have h2 : (s.add_entity d).2 = s.nextEntityId := rfl
        omega
      · have h1 := ih (s.add_entity d).1 i h
        have h2 : (s.add_entity d).1.nextEntityId = s.nextEntityId + 1 := rfl
        omega
    | update j u =>
      have h1 := ih (s.update_entity j u) i (by simpa [runOps] using h)
      rw [nextId_update_entity] at h1
      exact h1
    | remove j => exact ih (s.remove_entity j) i (by simpa [runOps] using h)

theorem runOps_ids_pairwise (ops : List StoreOp) : ∀ s : GameState,
    ((runOps s ops).2).Pairwise (· < ·) := by
  induction ops with
  | nil => intro s; simp [runOps]
  | cons op ops ih =>
    intro s
    cases op with
    | create d =>
      simp only [runOps]
      refine List.Pairwise.cons ?_ (ih _)
      intro b hb
      have h1 := runOps_ids_ge ops (s.add_entity d).1 b hb
      have h2 : (s.add_entity d).1.nextEntityId = s.nextEntityId + 1 := rfl
      have h3 : (s.add_entity d).2 = s.nextEntityId := rfl
      omega
    | update j u => simpa [runOps] using ih _
    | remove j => simpa [runOps] using ih _

theorem runOps_append (pre post : List StoreOp) : ∀ s : GameState,
    runOps s (pre ++ post) =
      ((runOps (runOps s pre).1 post).1,
       (runOps s pre).2 ++ (runOps (runOps s pre).1 post).2) := by
  induction pre with
  | nil => intro s; simp [runOps]
  | cons op pre ih =>
    intro s
    cases op <;> simp [runOps, ih]

theorem runOps_keys_sub (ops : List StoreOp) : ∀ (s : GameState) (k : Nat),
    k ∈ Dict.keys (runOps s ops).1.entities →
    k ∈ Dict.keys s.entities ∨ k ∈ (runOps s ops).2 := by
  induction ops with
  | nil => intro s k h; exact Or.inl (by simpa [runOps] using h)
  | cons op ops ih =>
    intro s k h
    cases op with
    | create d =>
      simp only [runOps] at h ⊢
      rcases ih _ k h with h1 | h1
      · rcases Dict.keys_set_subset s.entities s.nextEntityId _ k h1 with h2 | h2
        · exact Or.inl h2
        · refine Or.inr ?_
          rw [List.mem_cons]
          exact Or.inl h2
      · exact Or.inr (List.mem_cons_of_mem _ h1)
    | update j u =>
      simp only [runOps] at h ⊢
      rcases ih _ k h with h1 | h1
      · rw [keys_update_entity] at h1; exact Or.inl h1
      · exact Or.inr h1
    | remove j =>
      simp only [runOps] at h ⊢
      rcases ih _ k h with h1 | h1
      · exact Or.inl (keys_filter_sub s.entities _ k h1)
      · exact Or.inr h1

/-- Every stored entity's id attribute equals the key it is stored
under.  This is the sense in which an entity's identity never changes. -/
def IdFieldInv (s : GameState) : Prop :=
  ∀ i E, Dict.get? s.entities i = some E →
    Dict.get? E "id" = some (PyVal.int i)

/-- A store call that does not supply the reserved key "id". -/
def avoidsIdKey : StoreOp → Bool
  | StoreOp.create d => !(Dict.hasKey d "id")
  | StoreOp.update _ d => !(Dict.hasKey d "id")
  | StoreOp.remove _ => true

theorem idFieldInv_add (s : GameState) (d : EntityData)
    (h : IdFieldInv s) (hd : "id" ∉ Dict.keys d) :
    IdFieldInv (s.add_entity d).1 := by
  intro i E hE
  have hent : (s.add_entity d).1.entities =
      Dict.set s.entities s.nextEntityId
        (Dict.updateWith (defaultTemplate s.nextEntityId) d) := rfl
  rw [hent] at hE
  by_cases hi : i = s.nextEntityId
  · rw [hi] at hE ⊢
    rw [Dict.get?_set_self] at hE
    have hEeq : E = Dict.updateWith (defaultTemplate s.nextEntityId) d :=
      (Option.some_injective _ hE).symm
    rw [hEeq, Dict.get?_updateWith_not_mem _ _ _ hd]
    rfl
  · rw [Dict.get?_set_ne _ _ _ _ hi] at hE
    exact h i E hE

theorem idFieldInv_update (s : GameState) (j : Nat) (u : EntityData)
    (h : IdFieldInv s) (hu : "id" ∉ Dict.keys u) :
    IdFieldInv (s.update_entity j u) := by
  intro i E hE
  rw [get?_update_entity] at hE
  by_cases hij : i = j
  · rw [if_pos hij] at hE
    cases hs : Dict.get? s.entities i with
    | none => rw [hs] at hE; simp at hE
    | some E0 =>
      rw [hs] at hE
      simp only [Option.map_some'] at hE
      have hEeq : E = Dict.updateWith E0 u :=
        (Option.some_injective _ hE).symm
      rw [hEeq, Dict.get?_updateWith_not_mem _ _ _ hu]
      exact h i E0 hs
  · rw [if_neg hij] at hE
    exact h i E hE

theorem idFieldInv_remove (s : GameState) (j : Nat)
    (h : IdFieldInv s) : IdFieldInv (s.remove_entity j) := by
  intro i E hE
  have hf : Dict.get? (s.remove_entity j).entities i =
      (if i = j then none else Dict.get? s.entities i) :=
    Dict.get?_filterKeyNe s.entities j i
  rw [hf] at hE
  by_cases hij : i = j
  · rw [if_pos hij] at hE; simp at hE
  · rw [if_neg hij] at hE
    exact h i E hE

theorem idFieldInv_runOps (ops : List StoreOp) : ∀ s : GameState,
    (∀ op ∈ ops, avoidsIdKey op = true) → IdFieldInv s →
    IdFieldInv (runOps s ops).1 := by
  induction ops with
  | nil => intro s _ h; exact h
  | cons op ops ih =>
    intro s hops h
    have hop := hops op (List.mem_cons_self op ops)
    have hrest : ∀ o ∈ ops, avoidsIdKey o = true :=
      fun o ho => hops o (List.mem_cons_of_mem op ho)
    cases op with
    | create d =>
      have hd : "id" ∉ Dict.keys d := by
        refine (Dict.hasKey_eq_false_iff d "id").mp ?_
        simpa [avoidsIdKey] using hop
      exact ih _ hrest (idFieldInv_add s d h hd)
    | update j u =>
      have hu : "id" ∉ Dict.keys u := by
        refine (Dict.hasKey_eq_false_iff u "id").mp ?_
        simpa [avoidsIdKey] using hop
      exact ih _ hrest (idFieldInv_update s j u h hu)
    | remove j => exact ih _ hrest (idFieldInv_remove s j h)

theorem idFieldInv_init : IdFieldInv init := by
  intro i E hE
  simp [init] at hE

end GameState

/-! ## src/game/grid.py -/

/-- The Grid of grid.py.  Its cell size is config.CELL_SIZE; config.py
is not part of src, so the cell size is a parameter here.  Screen
coordinates are Python floats, modelled as rationals. -/
structure Grid where
  cell_size : ℚ

namespace Grid

/-- Grid.screen_to_grid: continuous screen coordinates to grid indices
(col, row), by floor division with the cell size. -/
def screen_to_grid (g : Grid) (x y : ℚ) : Int × Int :=
  (⌊x / g.cell_size⌋, ⌊y / g.cell_size⌋)

/-- Grid.grid_to_screen_center: grid indices (col, row) to the center
pixel coordinates of that cell. -/
def grid_to_screen_center (g : Grid) (col row : Int) : ℚ × ℚ :=
  (col * g.cell_size + g.cell_size / 2, row * g.cell_size + g.cell_size / 2)

theorem floor_center_div (cs : ℚ) (c : Int) (h : 0 < cs) :
    ⌊(c * cs + cs / 2) / cs⌋ = c := by
  have hne : cs ≠ 0 := ne_of_gt h
  have hdiv : (c * cs + cs / 2) / cs = (c : ℚ) + 1 / 2 := by
    field_simp
    ring
  rw [hdiv, Int.floor_int_add]
  have : ⌊(1 / 2 : ℚ)⌋ = 0 := by norm_num [Int.floor_eq_zero_iff]
  rw [this, add_zero]

end Grid

/-! ## src/game/renderer.py -/

/-- The observable state of PygameRenderer: the shared GameState, the
current selection (none = aggregate metrics), the frame counter, the
global-metrics cache, whether a monitor is attached, and a record of
everything handed to the monitor so far: every snapshot passed to
update_data and every id list passed to update_entity_list, in order of
delivery. -/
structure RState where
  state : GameState
  selected_entity_id : Option Nat
  frame_count : Nat
  global_metrics : Dict String PyVal
  hasMonitor : Bool
  snapshots : List (Dict String PyVal)
  entity_lists : List (List Nat)
deriving DecidableEq, Repr

/-- The global-metrics cache as initialized in PygameRenderer. -/
def initMetrics : Dict String PyVal :=
  [("Frame Count", .int 0), ("Current FPS", .num 0),
   ("Total Entities", .int 0), ("System Status", .str "Running")]

namespace RState

/-- A fresh renderer over a given game state. -/
def mk0 (monitor : Bool) (gs : GameState) : RState :=
  { state := gs, selected_entity_id := none, frame_count := 0,
    global_metrics := initMetrics, hasMonitor := monitor,
    snapshots := [], entity_lists := [] }

/-- PygameRenderer.set_selected_entity, the callback invoked from the
monitor thread when the user changes the selection. -/
def set_selected_entity (r : RState) (entity_id : Option Nat) : RState :=
  { r with selected_entity_id := entity_id }

end RState

/-- The movement update dictionary computed for one entity in
PygameRenderer.update: x advances by move_speed = 1.5 while it is left
of W - C, else wraps to 0 + 1.5; y is kept; the grid indices of the new
position are attached.  W is config.GAME_SCREEN_WIDTH and C is
config.CELL_SIZE (config.py is not in src, so both are parameters).
The result is none where Python would raise: the coordinate keys
missing or holding non-numeric values. -/
def moveUpdates (W C : ℚ) (d : EntityData) : Option EntityData :=
  match Dict.get? d "x", Dict.get? d "y" with
  | some vx, some vy =>
    match vx.toQ, vy.toQ with
    | some qx, some qy =>
      let new_x : ℚ := if qx < W - C then qx + 3 / 2 else 0 + 3 / 2
      some [("x", .num new_x), ("y", vy),
            ("grid_col", .int (Grid.screen_to_grid ⟨C⟩ new_x qy).1),
            ("grid_row", .int (Grid.screen_to_grid ⟨C⟩ new_x qy).2)]
    | _, _ => none
  | _, _ => none

/-- The movement loop of PygameRenderer.update: iterate over the ids of
the store in dictionary order, saving each update through the state
manager; none as soon as Python would raise on some entity. -/
def moveLoop (W C : ℚ) : List Nat → GameState → Option GameState
  | [], acc => some acc
  | i :: rest, acc =>
    match (Dict.get? acc.entities i).bind (moveUpdates W C) with
    | none => none
    | some u => moveLoop W C rest (acc.update_entity i u)

/-- One call of PygameRenderer.update: bump the frame counter, run the
movement loop, refresh the three per-frame global metrics in place,
push the id list to the monitor every 60th frame, and every 15th frame
publish either the global metrics (no selection) or the selected
entity's data.  fps is this frame's (rounded) clock.get_fps() reading,
an external input. -/
def RState.update (W C : ℚ) (fps : ℚ) (r : RState) : Option RState :=
  let fc := r.frame_count + 1
  (moveLoop W C (Dict.keys r.state.entities) r.state).map fun g =>
    let gm := Dict.set (Dict.set (Dict.set r.global_metrics
        "Frame Count" (.int fc))
        "Current FPS" (.num fps))
        "Total Entities" (.int g.entities.length)
    let el := if r.hasMonitor = true ∧ fc % 60 = 0
      then r.entity_lists ++ [g.get_entity_ids] else r.entity_lists
    let sn := if r.hasMonitor = true ∧ fc % 15 = 0
      then r.snapshots ++ [match r.selected_entity_id with
        | none => gm
        | some sel => g.get_entity_data sel]
      else r.snapshots
    { state := g, selected_entity_id := r.selected_entity_id,
      frame_count := fc, global_metrics := gm,
      hasMonitor := r.hasMonitor, snapshots := sn, entity_lists := el }

/-- Iterated PygameRenderer.update calls of the main loop, feeding each
frame its fps reading. -/
def runFrames (W C : ℚ) (fps : Nat → ℚ) : Nat → RState → Option RState
  | 0, r => some r
  | n + 1, r => (runFrames W C fps n r).bind (RState.update W C (fps n))

/-- An entity dictionary whose coordinate attributes are present and
numeric, so that the movement loop cannot raise on it. -/
def NumericXY (d : EntityData) : Prop :=
  (∃ v q, Dict.get? d "x" = some v ∧ PyVal.toQ v = some q) ∧
  (∃ v q, Dict.get? d "y" = some v ∧ PyVal.toQ v = some q)

/-- The update dictionary movement produces, spelled out. -/
def movedDict (W C qx : ℚ) (vy : PyVal) (qy : ℚ) : EntityData :=
  let new_x : ℚ := if qx < W - C then qx + 3 / 2 else 0 + 3 / 2
  [("x", .num new_x), ("y", vy),
   ("grid_col", .int (Grid.screen_to_grid ⟨C⟩ new_x qy).1),
   ("grid_row", .int (Grid.screen_to_grid ⟨C⟩ new_x qy).2)]

theorem moveUpdates_eq (W C : ℚ) (d : EntityData) (vx vy : PyVal)
    (qx qy : ℚ) (hvx : Dict.get? d "x" = some vx)
    (hvy : Dict.get? d "y" = some vy) (hqx : PyVal.toQ vx = some qx)
    (hqy : PyVal.toQ vy = some qy) :
    moveUpdates W C d = some (movedDict W C qx vy qy) := by
  simp only [moveUpdates, hvx, hvy, hqx, hqy, movedDict]

theorem numericXY_moved (d : EntityData) (W C qx : ℚ) (vy : PyVal)
    (qy : ℚ) (hqy : PyVal.toQ vy = some qy) :
    NumericXY (Dict.updateWith d (movedDict W C qx vy qy)) := by
  have hx : Dict.get? (Dict.updateWith d (movedDict W C qx vy qy)) "x"
      = some (.num (if qx < W - C then qx + 3 / 2 else 0 + 3 / 2)) := by
    show Dict.get? (Dict.set (Dict.set (Dict.set (Dict.set d "x" _) "y" vy)
      "grid_col" _) "grid_row" _) "x" = _
    rw [Dict.get?_set_ne _ _ _ _ (by decide), Dict.get?_set_ne _ _ _ _ (by decide),
        Dict.get?_set_ne _ _ _ _ (by decide), Dict.get?_set_self]
  have hy : Dict.get? (Dict.updateWith d (movedDict W C qx vy qy)) "y"
      = some vy := by
    show Dict.get? (Dict.set (Dict.set (Dict.set (Dict.set d "x" _) "y" vy)
      "grid_col" _) "grid_row" _) "y" = _
    rw [Dict.get?_set_ne _ _ _ _ (by decide), Dict.get?_set_ne _ _ _ _ (by decide),
        Dict.get?_set_self]
  exact ⟨⟨_, _, hx, rfl⟩, ⟨vy, qy, hy, hqy⟩⟩

theorem moveLoop_cons (W C : ℚ) (i : Nat) (rest : List Nat)
    (acc : GameState) (d u : EntityData)
    (hd : Dict.get? acc.entities i = some d)
    (hu : moveUpdates W C d = some u) :
    moveLoop W C (i :: rest) acc
      = moveLoop W C rest (acc.update_entity i u) := by
  have hb : (Dict.get? acc.entities i).bind (moveUpdates W C) = some u := by
    rw [hd]
    exact hu
  simp only [moveLoop, hb]

theorem moveLoop_two (W C : ℚ) (d1 d2 : EntityData) (n : Nat)
    (h1 : NumericXY d1) (h2 : NumericXY d2) :
    ∃ e1 e2, moveLoop W C [1, 2] ⟨[(1, d1), (2, d2)], n⟩
        = some ⟨[(1, e1), (2, e2)], n⟩ ∧ NumericXY e1 ∧ NumericXY e2 := by
  obtain ⟨⟨v1x, q1x, hv1x, hq1x⟩, ⟨v1y, q1y, hv1y, hq1y⟩⟩ := h1
  obtain ⟨⟨v2x, q2x, hv2x, hq2x⟩, ⟨v2y, q2y, hv2y, hq2y⟩⟩ := h2
  have hu1 := moveUpdates_eq W C d1 v1x v1y q1x q1y hv1x hv1y hq1x hq1y
  have hu2 := moveUpdates_eq W C d2 v2x v2y q2x q2y hv2x hv2y hq2x hq2y
  refine ⟨Dict.updateWith d1 (movedDict W C q1x v1y q1y),
          Dict.updateWith d2 (movedDict W C q2x v2y q2y),
          ?_, numericXY_moved d1 W C q1x v1y q1y hq1y,
          numericXY_moved d2 W C q2x v2y q2y hq2y⟩
  rw [moveLoop_cons W C 1 [2] ⟨[(1, d1), (2, d2)], n⟩ d1
      (movedDict W C q1x v1y q1y) rfl hu1]
  have hs1 : GameState.update_entity ⟨[(1, d1), (2, d2)], n⟩ 1
      (movedDict W C q1x v1y q1y)
      = ⟨[(1, Dict.updateWith d1 (movedDict W C q1x v1y q1y)), (2, d2)], n⟩ := rfl
  rw [hs1]
  rw [moveLoop_cons W C 2 []
      ⟨[(1, Dict.updateWith d1 (movedDict W C q1x v1y q1y)), (2, d2)], n⟩ d2
      (movedDict W C q2x v2y q2y) rfl hu2]
  rfl

/-- RState.update spelled out as an explicit record, given that the
movement loop succeeds. -/
theorem update_explicit (W C fps : ℚ) (r : RState) (g : GameState)
    (hml : moveLoop W C (Dict.keys r.state.entities) r.state = some g) :
    RState.update W C fps r = some
      { state := g,
        selected_entity_id := r.selected_entity_id,
        frame_count := r.frame_count + 1,
        global_metrics := Dict.set (Dict.set (Dict.set r.global_metrics
          "Frame Count" (.int (r.frame_count + 1)))
          "Current FPS" (.num fps))
          "Total Entities" (.int g.entities.length),
        hasMonitor := r.hasMonitor,
        snapshots := if r.hasMonitor = true ∧ (r.frame_count + 1) % 15 = 0
          then r.snapshots ++ [match r.selected_entity_id with
            | none => Dict.set (Dict.set (Dict.set r.global_metrics
                "Frame Count" (.int (r.frame_count + 1)))
                "Current FPS" (.num fps))
                "Total Entities" (.int g.entities.length)
            | some sel => g.get_entity_data sel]
          else r.snapshots,
        entity_lists := if r.hasMonitor = true ∧ (r.frame_count + 1) % 60 = 0
          then r.entity_lists ++ [g.get_entity_ids]
          else r.entity_lists } := by
  unfold RState.update
  rw [hml]
  rfl

theorem update_step_two (W C fps : ℚ) (r : RState) (d1 d2 : EntityData)
    (n : Nat) (hent : r.state = ⟨[(1, d1), (2, d2)], n⟩)
    (h1 : NumericXY d1) (h2 : NumericXY d2)
    (hsel : r.selected_entity_id = none) (hmon : r.hasMonitor = true) :
    ∃ r', RState.update W C fps r = some r' ∧
      (∃ e1 e2, r'.state = ⟨[(1, e1), (2, e2)], n⟩ ∧ NumericXY e1 ∧ NumericXY e2) ∧
      r'.selected_entity_id = none ∧ r'.hasMonitor = true ∧
      r'.frame_count = r.frame_count + 1 ∧
      Dict.get? r'.global_metrics "Total Entities" = some (PyVal.int 2) ∧
      r'.snapshots.length = (if (r.frame_count + 1) % 15 = 0
        then r.snapshots.length + 1 else r.snapshots.length) := by
  obtain ⟨e1, e2, hml, he1, he2⟩ := moveLoop_two W C d1 d2 n h1 h2
  have hml' : moveLoop W C (Dict.keys r.state.entities) r.state
      = some ⟨[(1, e1), (2, e2)], n⟩ := by
    rw [hent]; exact hml
  have hupd : RState.update W C fps r = some
      { state := ⟨[(1, e1), (2, e2)], n⟩,
        selected_entity_id := r.selected_entity_id,
        frame_count := r.frame_count + 1,
        global_metrics := Dict.set (Dict.set (Dict.set r.global_metrics
          "Frame Count" (.int (r.frame_count + 1)))
          "Current FPS" (.num fps))
          "Total Entities" (.int 2),
        hasMonitor := r.hasMonitor,
        snapshots := if r.hasMonitor = true ∧ (r.frame_count + 1) % 15 = 0
          then r.snapshots ++ [match r.selected_entity_id with
            | none => Dict.set (Dict.set (Dict.set r.global_metrics
                "Frame Count" (.int (r.frame_count + 1)))
                "Current FPS" (.num fps))
                "Total Entities" (.int 2)
            | some sel => GameState.get_entity_data ⟨[(1, e1), (2, e2)], n⟩ sel]
          else r.snapshots,
        entity_lists := if r.hasMonitor = true ∧ (r.frame_count + 1) % 60 = 0
          then r.entity_lists ++ [GameState.get_entity_ids ⟨[(1, e1), (2, e2)], n⟩]
          else r.entity_lists } := by
    unfold RState.update
    rw [hml']
    rfl
  refine ⟨_, hupd, ⟨e1, e2, rfl, he1, he2⟩, hsel, hmon, rfl, ?_, ?_⟩
  · exact Dict.get?_set_self _ _ _
  · by_cases h15 : (r.frame_count + 1) % 15 = 0
    · rw [if_pos ⟨hmon, h15⟩, if_pos h15, List.length_append]
      rfl
    · rw [if_neg (fun hc => h15 hc.2), if_neg h15]

/-- The entity store as main.py populates it before the loop starts:
two entities at the centers of cells (3,5) and (10,8). -/
def mainState (C : ℚ) : GameState :=
  ((GameState.init.add_entity
      [("x", .num (3 * C + C / 2)), ("y", .num (5 * C + C / 2)),
       ("name", .str "First Agent"), ("manual_spawn", .bool true),
       ("status", .str "Spawned")]).1.add_entity
      [("x", .num (10 * C + C / 2)), ("y", .num (8 * C + C / 2)),
       ("name", .str "Second Agent"), ("manual_spawn", .bool true),
       ("status", .str "Spawned")]).1

/-- The first entity of the reference scenario, spelled out. -/
def mainD1 (C : ℚ) : EntityData :=
  [("id", .int 1), ("x", .num (3 * C + C / 2)), ("y", .num (5 * C + C / 2)),
   ("status", .str "Spawned"), ("brain_active", .bool false),
   ("name", .str "First Agent"), ("manual_spawn", .bool true)]

/-- The second entity of the reference scenario, spelled out. -/
def mainD2 (C : ℚ) : EntityData :=
  [("id", .int 2), ("x", .num (10 * C + C / 2)), ("y", .num (8 * C + C / 2)),
   ("status", .str "Spawned"), ("brain_active", .bool false),
   ("name", .str "Second Agent"), ("manual_spawn", .bool true)]

theorem mainState_eq (C : ℚ) :
    mainState C = ⟨[(1, mainD1 C), (2, mainD2 C)], 3⟩ := rfl

theorem numericXY_mainD1 (C : ℚ) : NumericXY (mainD1 C) :=
  ⟨⟨_, 3 * C + C / 2, rfl, rfl⟩, ⟨_, 5 * C + C / 2, rfl, rfl⟩⟩

theorem numericXY_mainD2 (C : ℚ) : NumericXY (mainD2 C) :=
  ⟨⟨_, 10 * C + C / 2, rfl, rfl⟩, ⟨_, 8 * C + C / 2, rfl, rfl⟩⟩

/-- Invariants that hold after every frame of the reference scenario
(two entities, monitor attached, selection never changed): the store
keeps exactly the two entities with movable coordinates, the frame
counter equals the number of frames, and one snapshot was delivered per
completed 15-frame period. -/
theorem scenario_run (W C : ℚ) (fps : Nat → ℚ) (n : Nat) :
    ∃ r, runFrames W C fps n (RState.mk0 true (mainState C)) = some r ∧
      (∃ d1 d2 m, r.state = ⟨[(1, d1), (2, d2)], m⟩ ∧
        NumericXY d1 ∧ NumericXY d2) ∧
      r.selected_entity_id = none ∧ r.hasMonitor = true ∧
      r.frame_count = n ∧ r.snapshots.length = n / 15 ∧
      (1 ≤ n → Dict.get? r.global_metrics "Total Entities"
        = some (PyVal.int 2)) := by
  induction n with
  | zero =>
    refine ⟨RState.mk0 true (mainState C), rfl,
      ⟨mainD1 C, mainD2 C, 3, ?_, numericXY_mainD1 C, numericXY_mainD2 C⟩,
      rfl, rfl, rfl, rfl, ?_⟩
    · show (mainState C) = _
      exact mainState_eq C
    · intro h; omega
  | succ n ih =>
    obtain ⟨r, hrun, ⟨d1, d2, m, hst, h1, h2⟩, hsel, hmon, hfc, hsn, _⟩ := ih
    obtain ⟨r', hstep, hshape, hsel', hmon', hfc', htm', hsn'⟩ :=
      update_step_two W C (fps n) r d1 d2 m hst h1 h2 hsel hmon
    refine ⟨r', ?_, ?_, hsel', hmon', ?_, ?_, fun _ => htm'⟩
    · show (runFrames W C fps n (RState.mk0 true (mainState C))).bind
        (RState.update W C (fps n)) = some r'
      rw [hrun]
      exact hstep
    · obtain ⟨e1, e2, hse, he1, he2⟩ := hshape
      exact ⟨e1, e2, m, hse, he1, he2⟩
    · rw [hfc', hfc]
    · rw [hsn', hfc, hsn]
      by_cases h15 : (n + 1) % 15 = 0
      · rw [if_pos h15]
        omega
      · rw [if_neg h15]
        omega

/-- The fixed key order of the global-metrics display mapping:
tick counter, instantaneous rate, live entity count, status string. -/
def metricsKeys : List String :=
  ["Frame Count", "Current FPS", "Total Entities", "System Status"]

theorem hasKey_of_mem_metricsKeys (gm : Dict String PyVal) (k : String)
    (h : Dict.keys gm = metricsKeys) (hk : k ∈ metricsKeys) :
    Dict.hasKey gm k = true := by
  by_contra hc
  rw [Bool.not_eq_true, Dict.hasKey_eq_false_iff, h] at hc
  exact hc hk

/-- Refreshing the three per-frame metrics rewrites values in place and
keeps the key order fixed. -/
theorem keys_metrics_update (gm : Dict String PyVal) (a b c : PyVal)
    (h : Dict.keys gm = metricsKeys) :
    Dict.keys (Dict.set (Dict.set (Dict.set gm "Frame Count" a)
      "Current FPS" b) "Total Entities" c) = metricsKeys := by
  have h1 : Dict.keys (Dict.set gm "Frame Count" a) = metricsKeys := by
    rw [Dict.keys_set_of_hasKey _ _ _
      (hasKey_of_mem_metricsKeys gm _ h (by decide))]
    exact h
  have h2 : Dict.keys (Dict.set (Dict.set gm "Frame Count" a)
      "Current FPS" b) = metricsKeys := by
    rw [Dict.keys_set_of_hasKey _ _ _
      (hasKey_of_mem_metricsKeys _ _ h1 (by decide))]
    exact h1
  rw [Dict.keys_set_of_hasKey _ _ _
    (hasKey_of_mem_metricsKeys _ _ h2 (by decide))]
  exact h2

/-! ## src/gui/variable_monitor.py

The monitor side of the selection channel.  The dropdown holds strings;
entity ids appear as their decimal strings.  To relate a removed id to
its vanished dropdown entry we first prove that the decimal string of a
natural number determines it (toString on Nat is injective) and is
never the literal Game Metrics. -/

/-- The decimal digit characters of a number, most significant first:
the fuel-free form of the toDigitsCore loop behind Nat.repr. -/
def decDigits (n : Nat) : List Char :=
  if _h : n < 10 then [Nat.digitChar n]
  else decDigits (n / 10) ++ [Nat.digitChar (n % 10)]
termination_by n
decreasing_by exact Nat.div_lt_self (by omega) (by omega)

theorem toDigitsCore_eq_decDigits : ∀ (fuel n : Nat), n < fuel → ∀ acc,
    Nat.toDigitsCore 10 fuel n acc = decDigits n ++ acc := by
  intro fuel
  induction fuel with
  | zero => intro n hn; omega
  | succ fuel ih =>
    intro n hn acc
    simp only [Nat.toDigitsCore]
    by_cases h0 : n / 10 = 0
    · have hlt : n < 10 := by omega
      have hmod : n % 10 = n := by omega
      rw [if_pos h0, decDigits, dif_pos hlt, hmod]
      rfl
    · have hge : ¬n < 10 := by omega
      rw [if_neg h0]
      have hrhs : decDigits n
          = decDigits (n / 10) ++ [Nat.digitChar (n % 10)] := by
        rw [decDigits, dif_neg hge]
      rw [hrhs, ih (n / 10) (by omega) (Nat.digitChar (n % 10) :: acc),
          List.append_assoc]
      rfl

theorem digitChar_sub_zero (d : Nat) (h : d < 10) :
    (Nat.digitChar d).toNat - 48 = d := by
  interval_cases d <;> decide

theorem digitChar_isDigit (d : Nat) (h : d < 10) :
    (Nat.digitChar d).isDigit = true := by
  interval_cases d <;> decide

theorem foldl_decDigits (n : Nat) : ∀ v : Nat,
    List.foldl (fun a c => a * 10 + (c.toNat - 48)) v (decDigits n)
      = v * 10 ^ (decDigits n).length + n := by
  induction n using Nat.strong_induction_on with
  | _ n ih =>
    intro v
    by_cases h : n < 10
    · rw [decDigits, dif_pos h]
      show v * 10 + ((Nat.digitChar n).toNat - 48)
        = v * 10 ^ 1 + n
      rw [digitChar_sub_zero n h, pow_one]
    · rw [decDigits, dif_neg h, List.foldl_append,
          ih (n / 10) (Nat.div_lt_self (by omega) (by omega)) v,
          List.length_append]
      show (v * 10 ^ (decDigits (n / 10)).length + n / 10) * 10
          + ((Nat.digitChar (n % 10)).toNat - 48)
        = v * 10 ^ ((decDigits (n / 10)).length + 1) + n
      rw [digitChar_sub_zero (n % 10) (by omega), pow_succ]
      have hdm : n / 10 * 10 + n % 10 = n := by omega
      have hring : (v * 10 ^ (decDigits (n / 10)).length + n / 10) * 10 + n % 10
          = v * (10 ^ (decDigits (n / 10)).length * 10)
            + (n / 10 * 10 + n % 10) := by
        ring
      rw [hring, hdm]

theorem decDigits_all_digits (n : Nat) :
    ∀ c ∈ decDigits n, c.isDigit = true := by
  induction n using Nat.strong_induction_on with
  | _ n ih =>
    by_cases h : n < 10
    · rw [decDigits, dif_pos h]
      intro c hc
      rw [List.mem_singleton] at hc
      subst hc
      exact digitChar_isDigit n h
    · rw [decDigits, dif_neg h]
      intro c hc
      rcases List.mem_append.mp hc with h1 | h1
      · exact ih (n / 10) (Nat.div_lt_self (by omega) (by omega)) c h1
      · rw [List.mem_singleton] at h1
        subst h1
        exact digitChar_isDigit (n % 10) (by omega)

theorem repr_eq_decDigits (n : Nat) : Nat.repr n = (decDigits n).asString := by
  show (Nat.toDigits 10 n).asString = _
  rw [Nat.toDigits, toDigitsCore_eq_decDigits (n + 1) n (Nat.lt_succ_self n) [],
      List.append_nil]

theorem toString_nat_injective (m n : Nat) (h : toString m = toString n) :
    m = n := by
  have hm : Nat.repr m = Nat.repr n := h
  rw [repr_eq_decDigits, repr_eq_decDigits] at hm
  have hd : decDigits m = decDigits n := congrArg String.data hm
  have h1 := foldl_decDigits m 0
  have h2 := foldl_decDigits n 0
  rw [hd] at h1
  have h3 := h1.symm.trans h2
  simpa using h3

theorem toString_nat_ne_gameMetrics (n : Nat) :
    toString n ≠ "Game Metrics" := by
  intro h
  have hm : Nat.repr n = "Game Metrics" := h
  rw [repr_eq_decDigits] at hm
  have hd : decDigits n = "Game Metrics".data := congrArg String.data hm
  have hdig := decDigits_all_digits n
  rw [hd] at hdig
  have hG := hdig 'G' (by decide)
  exact absurd hG (by decide)

/-- The dropdown state of VariableMonitor: the current option list of
the entity dropdown and the currently selected option, both strings. -/
structure MonitorState where
  entity_ids : List String
  entity_var : String
deriving DecidableEq, Repr

/-- The dropdown as VariableMonitor starts: the single option Game
Metrics, selected. -/
def MonitorState.start : MonitorState :=
  { entity_ids := ["Game Metrics"], entity_var := "Game Metrics" }

/-- VariableMonitor._on_entity_select: the target id the write trace of
the dropdown variable sends through select_callback.  A nonempty
all-digit value (Python selected.isdigit()) selects the entity with
that decimal id (int(selected)); any other value, Game Metrics
included, selects the aggregate (None). -/
def selectTarget (selected : String) : Option Nat :=
  if selected.data ≠ [] ∧ selected.data.all Char.isDigit then
    some (selected.data.foldl (fun a c => a * 10 + (c.toNat - 48)) 0)
  else none

/-- The option list VariableMonitor._apply_entity_list_update builds
from a refreshed id list: Game Metrics first, then the sorted ids as
decimal strings. -/
def newIdsStr (new_entity_ids : List Nat) : List String :=
  "Game Metrics" :: (new_entity_ids.mergeSort (fun a b => a ≤ b)).map toString

/-- VariableMonitor._apply_entity_list_update together with its effect
on the renderer selection: replace the dropdown options with the list
built from the refreshed ids (early return when it is unchanged); when
the current dropdown value no longer appears among the options, reset
it to the first option, whose write trace fires _on_entity_select,
which sends the new target through select_callback to
PygameRenderer.set_selected_entity.  The second component is the
renderer selection after the call. -/
def applyEntityListUpdate (m : MonitorState) (sel : Option Nat)
    (new_entity_ids : List Nat) : MonitorState × Option Nat :=
  let new_ids_str := newIdsStr new_entity_ids
  if new_ids_str = m.entity_ids then (m, sel)
  else if m.entity_var ∈ new_ids_str then
    ({ m with entity_ids := new_ids_str }, sel)
  else
    ({ entity_ids := new_ids_str, entity_var := new_ids_str.headI },
     selectTarget new_ids_str.headI)

theorem headI_newIdsStr (ids : List Nat) :
    (newIdsStr ids).headI = "Game Metrics" := by
  rw [newIdsStr]
  rfl

/-- When the refreshed option list no longer carries the current
dropdown value, the rebuild resets the dropdown to Game Metrics and the
fired callback carries the aggregate selection. -/
theorem applyEntityListUpdate_reset (m : MonitorState) (sel : Option Nat)
    (ids : List Nat) (hvar : m.entity_var ∉ newIdsStr ids)
    (hch : newIdsStr ids ≠ m.entity_ids) :
    applyEntityListUpdate m sel ids
      = ({ entity_ids := newIdsStr ids, entity_var := "Game Metrics" },
         none) := by
  unfold applyEntityListUpdate
  rw [if_neg hch, if_neg hvar, headI_newIdsStr]
  have hsel : selectTarget "Game Metrics" = none := by decide
  rw [hsel]

/-- A removed id really vanishes from the refreshed option list:
decimal strings of distinct numbers are distinct, and none of them is
Game Metrics. -/
theorem toString_not_mem_newIdsStr (sel : Nat) (refreshed : List Nat)
    (hrm : sel ∉ refreshed) : toString sel ∉ newIdsStr refreshed := by
  intro hmem
  rw [newIdsStr, List.mem_cons] at hmem
  rcases hmem with hmem | hmem
  · exact toString_nat_ne_gameMetrics sel hmem
  · rw [List.mem_map] at hmem
    obtain ⟨j, hj, hjs⟩ := hmem
    rw [List.mem_mergeSort] at hj
    exact hrm (toString_nat_injective j sel hjs ▸ hj)

/-! ## The claims -/

/-- Claim C2: over every sequence of create calls, possibly interleaved
with updates and removals, the identities returned by create form a
strictly increasing sequence and are never repeated; the identity
counter never decreases along the run; and no two live entities share
an identity. -/
theorem claim_C2 (pre post : List StoreOp) :
    ((GameState.runOps GameState.init (pre ++ post)).2.Pairwise (· < ·)) ∧
    ((GameState.runOps GameState.init (pre ++ post)).2.Nodup) ∧
    ((GameState.runOps GameState.init pre).1.nextEntityId ≤
      (GameState.runOps GameState.init (pre ++ post)).1.nextEntityId) ∧
    ((GameState.runOps GameState.init (pre ++ post)).1.get_entity_ids.Nodup) := by
  refine ⟨GameState.runOps_ids_pairwise _ _, ?_, ?_, ?_⟩
  · exact List.Pairwise.imp ne_of_lt (GameState.runOps_ids_pairwise _ _)
  · rw [GameState.runOps_append pre post GameState.init]
    exact GameState.runOps_nextId_mono post _
  · exact (GameState.storeInv_runOps _ _ GameState.storeInv_init).2

/-- Claim C3: updating entity i with the partial dictionary u and then
reading it back leaves every attribute outside the keys of u exactly as
it was, extra unknown keys included: the update is a partial merge,
never a replacement. -/
theorem claim_C3 (s : GameState) (i : Nat) (E u : EntityData) (k : String)
    (hE : Dict.get? s.entities i = some E) (hk : k ∉ Dict.keys u) :
    Dict.get? (GameState.get_entity_data (s.update_entity i u) i) k
      = Dict.get? E k := by
  unfold GameState.get_entity_data
  rw [GameState.get?_update_entity, if_pos rfl, hE]
  show Dict.get? (Dict.updateWith E u) k = Dict.get? E k
  exact Dict.get?_updateWith_not_mem E u k hk

def c3Store : GameState := (GameState.init.add_entity [("name", PyVal.str "A")]).1

def c3Entity : EntityData :=
  [("id", .int 1), ("x", .int 0), ("y", .int 0), ("status", .str "Existing"),
   ("brain_active", .bool false), ("name", .str "A")]

/-- Witness for claim C3 at a concrete store, update and key. -/
theorem claim_C3_witness :
    Dict.get? (GameState.get_entity_data
      (c3Store.update_entity 1 [("x", PyVal.num 9)]) 1) "name"
      = Dict.get? c3Entity "name" :=
  claim_C3 c3Store 1 c3Entity [("x", PyVal.num 9)] "name" rfl (by decide)

/-- Claim C4: create never fails (add_entity is a total function),
allocates and returns the current value of the identity counter, and
inserts an entity that is exactly the caller data merged over the fixed
default template, caller keys taking precedence.  The template is the
one in the source: the allocated id, position (0,0), status Existing
and an inactive brain_active flag. -/
theorem claim_C4 (s : GameState) (a : EntityData) :
    (s.add_entity a).2 = s.nextEntityId ∧
    GameState.get_entity_data (s.add_entity a).1 s.nextEntityId
      = Dict.updateWith (GameState.defaultTemplate s.nextEntityId) a := by
  refine ⟨rfl, ?_⟩
  unfold GameState.get_entity_data
  have hset : Dict.get? (s.add_entity a).1.entities s.nextEntityId
      = some (Dict.updateWith (GameState.defaultTemplate s.nextEntityId) a) :=
    Dict.get?_set_self _ _ _
  rw [hset]
  rfl

/-- Counterexample to claim C5 as stated: a caller-supplied creation
attribute can change the stored identity field.  Creating an entity
with caller data containing the key id stores 999 in its id attribute
while create returns identity 1. -/
theorem claim_C5_counterexample :
    (GameState.init.add_entity [("id", PyVal.int 999)]).2 = 1 ∧
    Dict.get? (GameState.get_entity_data
      (GameState.init.add_entity [("id", PyVal.int 999)]).1 1) "id"
      = some (PyVal.int 999) ∧
    PyVal.int 999 ≠ PyVal.int 1 := by
  refine ⟨rfl, rfl, ?_⟩
  decide

/-- Claim C5 as amended: provided no create or update call supplies the
reserved key id, every live entity's stored id attribute equals the
identity under which it is stored (which is the identity create
returned for it), across any sequence of store calls. -/
theorem claim_C5 (ops : List StoreOp)
    (hops : ∀ op ∈ ops, GameState.avoidsIdKey op = true)
    (i : Nat) (E : EntityData)
    (hE : Dict.get? (GameState.runOps GameState.init ops).1.entities i = some E) :
    Dict.get? E "id" = some (PyVal.int i) :=
  GameState.idFieldInv_runOps ops GameState.init hops
    GameState.idFieldInv_init i E hE

def c5Entity : EntityData :=
  [("id", .int 1), ("x", .num 3), ("y", .int 0), ("status", .str "Existing"),
   ("brain_active", .bool false), ("name", .str "A")]

/-- Witness for the amended claim C5 on a concrete create and update. -/
theorem claim_C5_witness :
    Dict.get? c5Entity "id" = some (PyVal.int 1) :=
  claim_C5 [StoreOp.create [("name", PyVal.str "A")],
            StoreOp.update 1 [("x", PyVal.num 3)]]
    (by decide) 1 c5Entity rfl

/-- Claim C6: reading an identity that was never issued over the whole
run, or one that has just been removed, yields the designated absent
value (the empty dictionary); get_entity_data is total, so it cannot
raise. -/
theorem claim_C6 (ops : List StoreOp) (s : GameState) (i : Nat)
    (h : i ∉ (GameState.runOps GameState.init ops).2) :
    GameState.get_entity_data (GameState.runOps GameState.init ops).1 i = [] ∧
    GameState.get_entity_data (s.remove_entity i) i = [] := by
  constructor
  · unfold GameState.get_entity_data
    have hnone : Dict.get?
        (GameState.runOps GameState.init ops).1.entities i = none := by
      apply Dict.get?_eq_none_of_not_mem_keys
      intro hmem
      rcases GameState.runOps_keys_sub ops GameState.init i hmem with h1 | h1
      · simp [GameState.init, Dict.keys] at h1
      · exact h h1
    rw [hnone]
    rfl
  · unfold GameState.get_entity_data
    have hnone : Dict.get? (s.remove_entity i).entities i = none := by
      have hf := Dict.get?_filterKeyNe s.entities i i
      rw [if_pos rfl] at hf
      exact hf
    rw [hnone]
    rfl

/-- Witness for claim C6: identity 7 was never issued by the one-create
run, and reading it there, or reading a just-removed identity, gives
the empty dictionary. -/
theorem claim_C6_witness :
    GameState.get_entity_data
      (GameState.runOps GameState.init [StoreOp.create []]).1 7 = [] ∧
    GameState.get_entity_data (GameState.init.remove_entity 7) 7 = [] :=
  claim_C6 [StoreOp.create []] GameState.init 7 (by decide)

/-- Claim C7: updating an identity that is absent from the store is a
no-op, not an error: the entire store, entities and counter alike, is
returned unchanged (and update_entity is total, so nothing is raised). -/
theorem claim_C7 (s : GameState) (i : Nat) (u : EntityData)
    (h : Dict.get? s.entities i = none) : s.update_entity i u = s := by
  unfold GameState.update_entity
  have hk : ¬Dict.hasKey s.entities i = true := by
    intro hc
    exact (Dict.hasKey_iff_get? s.entities i).mp hc h
  rw [if_neg hk]

/-- Witness for claim C7 on the empty store. -/
theorem claim_C7_witness :
    GameState.init.update_entity 3 [("x", PyVal.int 1)] = GameState.init :=
  claim_C7 GameState.init 3 [("x", PyVal.int 1)] rfl

/-- Claim C8: whenever the selection is the aggregate (no entity
selected) and the frame is a publication frame, the snapshot handed to
the monitor is exactly the current global-metrics mapping, whose key
order is fixed as tick counter, instantaneous rate, live entity count,
status string. -/
theorem claim_C8 (W C fps : ℚ) (r r' : RState)
    (h : RState.update W C fps r = some r')
    (hsel : r.selected_entity_id = none)
    (hmon : r.hasMonitor = true)
    (hkeys : Dict.keys r.global_metrics = metricsKeys)
    (hpub : (r.frame_count + 1) % 15 = 0) :
    r'.snapshots = r.snapshots ++ [r'.global_metrics] ∧
    Dict.keys r'.global_metrics = metricsKeys := by
  cases hml : moveLoop W C (Dict.keys r.state.entities) r.state with
  | none =>
    exfalso
    unfold RState.update at h
    rw [hml] at h
    simp at h
  | some g =>
    have hexp := update_explicit W C fps r g hml
    rw [h] at hexp
    injection hexp with hexp
    subst hexp
    constructor
    · dsimp only
      rw [if_pos ⟨hmon, hpub⟩, hsel]
    · exact keys_metrics_update _ _ _ _ hkeys

def c8State : RState :=
  { RState.mk0 true (mainState 40) with frame_count := 14 }

def c8Next : RState :=
  (RState.update 800 40 0 c8State).getD (RState.mk0 true GameState.init)

/-- Witness for claim C8 on a concrete publication frame of the
reference scenario. -/
theorem claim_C8_witness :
    c8Next.snapshots = c8State.snapshots ++ [c8Next.global_metrics] ∧
    Dict.keys c8Next.global_metrics = metricsKeys :=
  claim_C8 800 40 0 c8State c8Next rfl rfl rfl rfl (by decide)

/-- A store whose only entity was created and then removed. -/
def c1Store : GameState :=
  ((GameState.init.add_entity
    [("x", PyVal.num 140), ("y", PyVal.num 220)]).1).remove_entity 1

/-- A renderer one frame before publication, still pointed (through the
selection callback) at the removed entity 1. -/
def c1State : RState :=
  { (RState.mk0 true c1Store).set_selected_entity (some 1) with
    frame_count := 14 }

/-- The renderer state after the publication frame. -/
def c1Next : RState :=
  (RState.update 800 40 0 c1State).getD (RState.mk0 true GameState.init)

/-- Counterexample to claim C1 as stated: with selection Entity(1) and
entity 1 removed before the snapshot frame, the published snapshot is
the empty mapping, which differs from the aggregate-metrics snapshot,
and the selection still reads Entity(1) immediately after that frame
(the reset to the aggregate happens later, on the identity-refresh
path, not at publication). -/
theorem claim_C1_counterexample :
    RState.update 800 40 0 c1State = some c1Next ∧
    c1Next.snapshots = [[]] ∧
    c1Next.snapshots ≠ [c1Next.global_metrics] ∧
    c1Next.selected_entity_id = some 1 := by
  refine ⟨rfl, rfl, ?_, rfl⟩
  decide

/-- Claim C1 as amended: if the selection is Entity(sel) and sel is
absent from the store at the snapshot frame, the snapshot published on
that frame is the empty mapping (the absent value of get_entity_data),
not the aggregate snapshot, and the publication path leaves the
selection at Entity(sel).  The selection does subsequently read
Aggregate, but through the separate identity-refresh path: when the
next pushed identity list no longer contains sel (its dropdown entry,
previously among the options, is gone from the rebuilt options), the
monitor resets the dropdown to Game Metrics and the selection callback
sets the renderer selection to the aggregate. -/
theorem claim_C1 (W C fps : ℚ) (r r' : RState) (sel : Nat)
    (m : MonitorState) (refreshed : List Nat)
    (h : RState.update W C fps r = some r')
    (hsel : r.selected_entity_id = some sel)
    (hmon : r.hasMonitor = true)
    (habs : Dict.get? r'.state.entities sel = none)
    (hpub : (r.frame_count + 1) % 15 = 0)
    (hvar : m.entity_var = toString sel)
    (hopt : toString sel ∈ m.entity_ids)
    (hrm : sel ∉ refreshed) :
    r'.snapshots = r.snapshots ++ [[]] ∧
    r'.selected_entity_id = some sel ∧
    (applyEntityListUpdate m r'.selected_entity_id refreshed).1.entity_var
      = "Game Metrics" ∧
    (r'.set_selected_entity
      (applyEntityListUpdate m r'.selected_entity_id refreshed).2).selected_entity_id
      = none := by
  have hnot : toString sel ∉ newIdsStr refreshed :=
    toString_not_mem_newIdsStr sel refreshed hrm
  have hvar' : m.entity_var ∉ newIdsStr refreshed := by
    rw [hvar]
    exact hnot
  have hch : newIdsStr refreshed ≠ m.entity_ids := by
    intro he
    exact hnot (he ▸ hopt)
  have hreset :=
    applyEntityListUpdate_reset m r'.selected_entity_id refreshed hvar' hch
  cases hml : moveLoop W C (Dict.keys r.state.entities) r.state with
  | none =>
    exfalso
    unfold RState.update at h
    rw [hml] at h
    simp at h
  | some g =>
    have hexp := update_explicit W C fps r g hml
    rw [h] at hexp
    injection hexp with hexp
    subst hexp
    have habs' : Dict.get? g.entities sel = none := habs
    refine ⟨?_, hsel, ?_, ?_⟩
    · dsimp only
      rw [if_pos ⟨hmon, hpub⟩, hsel]
      have hget : GameState.get_entity_data g sel = [] := by
        unfold GameState.get_entity_data
        rw [habs']
        rfl
      show r.snapshots ++ [GameState.get_entity_data g sel]
        = r.snapshots ++ [[]]
      rw [hget]
    · rw [hreset]
    · rw [hreset]
      rfl

/-- The monitor dropdown as it stands while entity 1 is selected: the
options from the last refresh and the current value, the string of 1. -/
def c1Monitor : MonitorState :=
  { entity_ids := ["Game Metrics", "1"], entity_var := "1" }

/-- Witness for the amended claim C1 at the concrete stale-selection
state, with the refreshed identity list of the emptied store. -/
theorem claim_C1_witness :
    c1Next.snapshots = c1State.snapshots ++ [[]] ∧
    c1Next.selected_entity_id = some 1 ∧
    (applyEntityListUpdate c1Monitor c1Next.selected_entity_id []).1.entity_var
      = "Game Metrics" ∧
    (c1Next.set_selected_entity
      (applyEntityListUpdate c1Monitor c1Next.selected_entity_id []).2).selected_entity_id
      = none :=
  claim_C1 800 40 0 c1State c1Next 1 c1Monitor [] rfl rfl rfl rfl (by decide)
    (by decide) (by decide) (by decide)

/-- Claim C9: in the reference scenario (two entities created before
the loop, monitor attached, selection untouched, snapshot cadence 15
and identity-refresh cadence 60 hard-wired in update), after every
frame count n between 1 and 120 the live entity count metric equals 2,
and after frame 120 the frame counter is 120 and at least 8 snapshots
have been delivered to the monitor.  The screen width, cell size and
the per-frame fps readings are arbitrary. -/
theorem claim_C9 (W C : ℚ) (fps : Nat → ℚ) (n : Nat)
    (h1 : 1 ≤ n) (_h120 : n ≤ 120) :
    ((runFrames W C fps n (RState.mk0 true (mainState C))).map
      (fun r => Dict.get? r.global_metrics "Total Entities"))
      = some (some (PyVal.int 2)) ∧
    (n = 120 →
      ((runFrames W C fps n (RState.mk0 true (mainState C))).map
        (fun r => r.frame_count)) = some 120 ∧
      8 ≤ (((runFrames W C fps n (RState.mk0 true (mainState C))).map
        (fun r => r.snapshots.length)).getD 0)) := by
  obtain ⟨r, hrun, _, _, _, hfc, hsn, htm⟩ := scenario_run W C fps n
  rw [hrun]
  refine ⟨?_, fun hn => ⟨?_, ?_⟩⟩
  · simp only [Option.map_some']
    rw [htm h1]
  · simp only [Option.map_some']
    rw [hfc, hn]
  · simp only [Option.map_some', Option.getD_some]
    rw [hsn, hn]

/-- Witness for claim C9 at frame 120 with concrete configuration
values and a constant fps reading. -/
theorem claim_C9_witness :
    ((runFrames 800 40 (fun _ => 0) 120 (RState.mk0 true (mainState 40))).map
      (fun r => Dict.get? r.global_metrics "Total Entities"))
      = some (some (PyVal.int 2)) ∧
    (120 = 120 →
      ((runFrames 800 40 (fun _ => 0) 120 (RState.mk0 true (mainState 40))).map
        (fun r => r.frame_count)) = some 120 ∧
      8 ≤ (((runFrames 800 40 (fun _ => 0) 120 (RState.mk0 true (mainState 40))).map
        (fun r => r.snapshots.length)).getD 0)) :=
  claim_C9 800 40 (fun _ => 0) 120 (by decide) (by decide)

/-- Claim C10: converting non-negative grid indices to the center pixel
coordinates of the cell and back returns the original indices, for
every positive cell size. -/
theorem claim_C10 (g : Grid) (col row : Int) (hcs : 0 < g.cell_size)
    (_hcol : 0 ≤ col) (_hrow : 0 ≤ row) :
    g.screen_to_grid (g.grid_to_screen_center col row).1
      (g.grid_to_screen_center col row).2 = (col, row) := by
  unfold Grid.screen_to_grid Grid.grid_to_screen_center
  rw [Grid.floor_center_div g.cell_size col hcs,
      Grid.floor_center_div g.cell_size row hcs]

/-- Witness for claim C10 at cell size 40 and cell (3, 5). -/
theorem claim_C10_witness :
    Grid.screen_to_grid ⟨40⟩ (Grid.grid_to_screen_center ⟨40⟩ 3 5).1
      (Grid.grid_to_screen_center ⟨40⟩ 3 5).2 = (3, 5) :=
  claim_C10 ⟨40⟩ 3 5 (by decide) (by decide) (by decide)
